import Mathlib

/-
Verification of the Oyez case-scraper (`oyez_scraper/selenium_transcript.py`)
against its natural-language specification.

The script is embedded shallowly: every Selenium/DOM interaction that can
either produce a value or raise an exception is modelled as an oracle
(`Option` value, or `Bool` success flag) packaged in an environment
structure; the control flow of the two Python functions
(`get_case_metadata`, `get_transcript_with_selenium`) is translated
statement by statement, with Python `try/except` translated as the
corresponding case analysis on the oracle, and Python dicts modelled as
insertion-ordered association lists.
-/

set_option autoImplicit false

namespace OyezScraper

/-! ## Python dict model

A Python dict is modelled as an insertion-ordered association list.
Assigning to an existing key replaces its value in place; assigning to a
fresh key appends.  `dictGet d k` is `d.get(k)`: `none` models Python
`None` for a missing key. -/

/-- JSON-ish values stored in the metadata dict: strings, Python `None`,
and the list of `{name, role}` advocate records. -/
inductive JVal where
  | s (v : String)
  | null
  | adv (v : List (String × String))
deriving DecidableEq, Repr

abbrev Dict := List (String × JVal)

def dictSet : Dict → String → JVal → Dict
  | [], k, v => [(k, v)]
  | (k', v') :: rest, k, v =>
    if k' = k then (k', v) :: rest else (k', v') :: dictSet rest k v

def dictGet : Dict → String → Option JVal
  | [], _ => none
  | (k', v') :: rest, k => if k' = k then some v' else dictGet rest k

/-- Python truthiness of a value stored in the dict (`if not value:`):
`None` and the empty string (and an empty list) are falsy. -/
def jvalTruthy : JVal → Bool
  | .s v => !(v == "")
  | .null => false
  | .adv l => !l.isEmpty

/-- Python truthiness of `d.get(k)` (missing key gives `None`, falsy). -/
def jvalTruthyOpt : Option JVal → Bool
  | none => false
  | some v => jvalTruthy v

/-! ## Python string primitives

Implemented structurally over `List Char` so that every definition
evaluates by kernel reduction.  Each models the Python `str` method the
source uses (on the ASCII data the site serves). -/

/-- `charsBeginWith sub l` : the char list `l` starts with `sub`. -/
def charsBeginWith : List Char → List Char → Bool
  | [], _ => true
  | _ :: _, [] => false
  | a :: as, b :: bs => a == b && charsBeginWith as bs

/-- `charsContain sub l` : `sub` occurs contiguously somewhere in `l`;
this is Python's `sub in l` on strings. -/
def charsContain (sub : List Char) : List Char → Bool
  | [] => charsBeginWith sub []
  | c :: rest => charsBeginWith sub (c :: rest) || charsContain sub rest

/-- Python `needle in hay` for strings. -/
def pySubstr (needle hay : String) : Bool :=
  charsContain needle.toList hay.toList

/-- Python `s.strip()` with no argument: drop leading and trailing
whitespace. -/
def pyStrip (s : String) : String :=
  ((s.toList.dropWhile Char.isWhitespace).reverse.dropWhile Char.isWhitespace).reverse.asString

/-- Python `s.lower()`. -/
def pyLower (s : String) : String :=
  (s.toList.map Char.toLower).asString

/-- Splitter for Python `s.split()`: whitespace runs separate words,
empty pieces are dropped.  `acc` holds the current word reversed. -/
def wordsGo : List Char → List Char → List String
  | [], acc => if acc.isEmpty then [] else [acc.reverse.asString]
  | c :: rest, acc =>
    if c.isWhitespace then
      if acc.isEmpty then wordsGo rest [] else acc.reverse.asString :: wordsGo rest []
    else wordsGo rest (c :: acc)

/-- Python `s.split()` with no argument. -/
def pySplit (s : String) : List String :=
  wordsGo s.toList []

/-- Replacement engine for Python `s.replace(pat, sub)`: scan left to
right, replacing non-overlapping occurrences.  `skip` counts characters
of an already-replaced occurrence still to be consumed.  (For the empty
pattern, never used by the source, this copies the string unchanged.) -/
def replaceGo (pat sub : List Char) : List Char → Nat → List Char
  | [], _ => []
  | c :: rest, skip =>
    match skip with
    | n + 1 => replaceGo pat sub rest n
    | 0 =>
      if charsBeginWith pat (c :: rest) && !pat.isEmpty then
        sub ++ replaceGo pat sub rest (pat.length - 1)
      else c :: replaceGo pat sub rest 0

/-- Python `s.replace(pat, sub)`. -/
def pyReplace (s pat sub : String) : String :=
  (replaceGo pat.toList sub.toList s.toList 0).asString

/-- Python `sep.join(l)`. -/
def pyJoin (sep : String) : List String → String
  | [] => ""
  | [x] => x
  | x :: rest => x ++ sep ++ pyJoin sep rest

/-- Line 55: `any(word.lower() in title.lower() for word in case_name.split())`. -/
def titleMatches (caseName title : String) : Bool :=
  (pySplit caseName).any (fun w => pySubstr (pyLower w) (pyLower title))

/-- One listing entry's `h2 a` text lookup: `none` models the
`find_element` raising (the loop's `except` skips the entry),
`some t` the raw `.text` (the loop strips it before matching). -/
def matchesEntry (caseName : String) : Option String → Bool
  | none => false
  | some t => titleMatches caseName (pyStrip t)

/-- The matching loop of lines 50-60, with the running index made
explicit: return the index of the first listing entry whose (stripped)
title matches, skipping entries whose title lookup raises. -/
def findTargetIdx (caseName : String) : List (Option String) → Nat → Option Nat
  | [], _ => none
  | e :: rest, i =>
    if matchesEntry caseName e then some i else findTargetIdx caseName rest (i + 1)

def findTargetCase (caseName : String) (listing : List (Option String)) : Option Nat :=
  findTargetIdx caseName listing 0

/-! ## Metadata extractor environment

One oracle per DOM interaction of `get_case_metadata` (lines 65-212).
`none` / `false` models the corresponding Selenium call raising; `some`
carries the raw `.text` / attribute value the call would return, with
Python's `.strip()` / `.replace` / `.lower()` applied afterwards in the
embedding exactly where the source applies them. -/

structure MetaEnv where
  /-- `h2 a` text of each listing entry (`none` = lookup raises). -/
  listing : List (Option String)
  /-- The `case_name` argument. -/
  caseName : String
  /-- Line 69: `target_case.find_element('h2 a')` + `.text` (re-lookup). -/
  titleRes : Option String
  /-- Line 71: `get_attribute('href')`; `none` models the attribute being
  absent, in which case `metadata['url']` becomes Python `None` and the
  subsequent `driver.get(None)` raises. -/
  urlRes : Option String
  /-- Line 75: `.description` element text (`none` = lookup raises). -/
  descriptionRes : Option String
  /-- Line 79: `driver.get(case_url)` succeeding. -/
  detailNavOk : Bool
  /-- Line 85: `div.row:first-child` lookup succeeding. -/
  partiesRowOk : Bool
  /-- Line 86: the petitioner div text. -/
  petitionerRes : Option String
  /-- Line 87: the respondent div text. -/
  respondentRes : Option String
  /-- Lines 101-110: the advocates section; `some l` gives the raw
  `(name, role)` texts of every `.advocate`; `none` models the section
  lookup or any per-advocate lookup raising (the single assignment to
  `metadata['advocates']` then never happens). -/
  advocatesRes : Option (List (String × String))
  /-- Lines 116-117: facts section paragraphs (`none` = section lookup raises). -/
  factsRes : Option (List String)
  /-- Lines 124-125: question section paragraphs. -/
  questionRes : Option (List String)
  /-- Lines 132-133: conclusion section paragraphs. -/
  conclusionRes : Option (List String)
  /-- Lines 141-146: primary oral-argument selector
  (`a[data-gtm-category="Audios"]...[iframe-url*="oral_argument_audio"]`)
  with its `iframe-url` attribute. -/
  oralPrimaryRes : Option String
  /-- Lines 154-158: looser fallback selector `a[iframe-url*="oral_argument_audio"]`. -/
  oralAltRes : Option String
  /-- Line 167: the timeline section lookup succeeding. -/
  timelineSectionOk : Bool
  /-- Lines 171-175: the citation span text. -/
  citationRes : Option String
  /-- Lines 186-195: per timeline item, the `h3` header text and the date
  text (`none` = the respective lookup raises). -/
  timelineItems : List (Option String × Option String)
deriving Repr

/-! ## Metadata field extraction steps (lines 84-198)

Each step is one `try/except` group of the source.  A step receives the
dict built so far and returns the updated dict; an oracle `none` at some
point of a group aborts the rest of that group (the `except` swallows the
exception after printing). -/

/-- Lines 84-89: petitioner and respondent, guarded by one `try`. A
failure on the row lookup or the petitioner lookup leaves both unset; a
failure on the respondent lookup leaves the already-assigned petitioner. -/
def partiesStep (env : MetaEnv) (d : Dict) : Dict :=
  if env.partiesRowOk then
    match env.petitionerRes with
    | none => d
    | some p =>
      let d := dictSet d "petitioner" (.s (pyStrip (pyReplace p "Petitioner" "")))
      match env.respondentRes with
      | none => d
      | some r => dictSet d "respondent" (.s (pyStrip (pyReplace r "Respondent" "")))
  else d

/-- Lines 91-97: the case-details group.  Its first statement calls
`.strip()` on the WebElement returned by `find_element` (line 93), which
raises `AttributeError` unconditionally (and the XPath ends in `/text()`,
which Selenium rejects anyway), so `docket_no`, `decided_by` and
`lower_court` are never assigned: the whole group is a no-op. -/
def detailsStep (d : Dict) : Dict := d

/-- Lines 99-112: advocates list, assigned in one statement after the loop. -/
def advocatesStep (env : MetaEnv) (d : Dict) : Dict :=
  match env.advocatesRes with
  | none => d
  | some l => dictSet d "advocates" (.adv (l.map (fun p => (pyStrip p.1, pyStrip p.2))))

/-- Lines 114-120: facts paragraphs joined with a blank line. -/
def factsStep (env : MetaEnv) (d : Dict) : Dict :=
  match env.factsRes with
  | none => d
  | some ps => dictSet d "facts" (.s (pyJoin "\n\n" (ps.map pyStrip)))

/-- Lines 122-128: question presented. -/
def questionStep (env : MetaEnv) (d : Dict) : Dict :=
  match env.questionRes with
  | none => d
  | some ps => dictSet d "question" (.s (pyJoin "\n\n" (ps.map pyStrip)))

/-- Lines 130-136: conclusion. -/
def conclusionStep (env : MetaEnv) (d : Dict) : Dict :=
  match env.conclusionRes with
  | none => d
  | some ps => dictSet d "conclusion" (.s (pyJoin "\n\n" (ps.map pyStrip)))

/-- Lines 138-163: oral-argument URL with the two-tier selector fallback;
when both selectors fail the field is explicitly set to `None`. -/
def oralStep (env : MetaEnv) (d : Dict) : Dict :=
  match env.oralPrimaryRes with
  | some u => dictSet d "oral_argument_url" (.s u)
  | none =>
    match env.oralAltRes with
    | some u => dictSet d "oral_argument_url" (.s u)
    | none => dictSet d "oral_argument_url" .null

/-- Lines 186-195: the timeline-date loop.  `hv` is the Python local
`header`: `none` while it is still unbound.  The per-item `except`
handler prints `header`, so when `header` is unbound it raises
`NameError`, which propagates to the enclosing `except` of line 197 and
ends the whole timeline pass with the dict as it stands. -/
def timelineLoop : List (Option String × Option String) → Option String → Dict → Dict
  | [], _, d => d
  | (hRes, dtRes) :: rest, hv, d =>
    match hRes with
    | some hRaw =>
      let h := pyLower (pyStrip hRaw)
      match dtRes with
      | some dt => timelineLoop rest (some h) (dictSet d h (.s (pyStrip dt)))
      | none => timelineLoop rest (some h) (dictSet d h .null)
    | none =>
      match hv with
      | some h => timelineLoop rest hv (dictSet d h .null)
      | none => d

/-- Lines 165-198: the timeline section: citation (its own inner
`try/except`, which sets `None` on failure), then the date loop. -/
def timelineStep (env : MetaEnv) (d : Dict) : Dict :=
  if env.timelineSectionOk then
    timelineLoop env.timelineItems none
      (match env.citationRes with
       | some c => dictSet d "citation" (.s (pyStrip c))
       | none => dictSet d "citation" .null)
  else d

/-- Lines 84-198: the per-group extraction chain, in source order. -/
def fieldChain (env : MetaEnv) (d : Dict) : Dict :=
  timelineStep env (oralStep env (conclusionStep env (questionStep env
    (factsStep env (advocatesStep env (detailsStep (partiesStep env d)))))))

/-- Lines 65-212: the dict built by `get_case_metadata` once a target
case has been found.  The title, url and description assignments (lines
68-76) and the detail-page navigation (line 79) are *not* individually
guarded: a failure there propagates to the outer `except` of line 200,
which swallows it, so the dict is returned as it stands. -/
def metadataFields (env : MetaEnv) : Dict :=
  match env.titleRes with
  | none => []
  | some t =>
    let d := dictSet [] "title" (.s (pyStrip t))
    match env.urlRes with
    | none => dictSet d "url" .null
    | some u =>
      let d := dictSet d "url" (.s u)
      match env.descriptionRes with
      | none => d
      | some dsc =>
        let d := dictSet d "description" (.s (pyStrip dsc))
        if env.detailNavOk then fieldChain env d else d

/-- Line 63's exception message (the source wraps the name in single
quotes inside an f-string). -/
def notFoundMsg (caseName : String) : String :=
  "Could not find case containing " ++ caseName ++
    ". Please check the available cases listed above."

/-- Lines 30-212: `get_case_metadata`.  The only exception it can raise
to its caller is the not-found failure of line 63 (everything after is
inside the blanket `try/except` ending at line 201). -/
def get_case_metadata (env : MetaEnv) : Except String Dict :=
  match findTargetCase env.caseName env.listing with
  | none => .error (notFoundMsg env.caseName)
  | some _ => .ok (metadataFields env)

/-! ## Transcript extractor (lines 214-364)

One transcript block of the player page.  All of the block's Selenium/JS
interactions (the forced click of line 295, `block.text`, the two
timing attributes, the speaker script of lines 305-317, the fallback
`speakers[0].text` of line 325) happen *before* both the update of
`current_speaker` and the append, and any of them raising is caught by
the per-block `except` of line 338; `exn = true` models one of them
raising. -/
structure TBlock where
  exn : Bool
  /-- `block.text` (stripped at line 298 by the loop itself). -/
  text : String
  /-- `get_attribute('start-time')`; `none` = attribute absent, Python `None`. -/
  startTime : Option String
  /-- `get_attribute('stop-time')`. -/
  stopTime : Option String
  /-- Result of the `findSpeaker` script: the enclosing
  `.transcript-turn` label's `textContent`, or JS `null`. -/
  label : Option String
deriving DecidableEq, Repr

/-- One emitted transcript entry (lines 328-333). -/
structure Entry where
  speaker : String
  text : String
  start_time : Option String
  stop_time : Option String
deriving DecidableEq, Repr

/-- Python truthiness of the `speaker` / `current_speaker` locals:
`None` and `""` are falsy. -/
def pyTruthy : Option String → Bool
  | none => false
  | some s => !(s == "")

/-- Lines 319-325: the new value of `current_speaker` for one block:
the block's own turn label (stripped) when truthy; otherwise, when
`current_speaker` is falsy, the first `h4.ng-binding` on the page
(stripped) if any; otherwise unchanged. -/
def resolveSpeaker (fallback : List String) (cur : Option String) (b : TBlock) :
    Option String :=
  if pyTruthy b.label then some (pyStrip (b.label.getD ""))
  else if !pyTruthy cur then
    match fallback with
    | [] => cur
    | s :: _ => some (pyStrip s)
  else cur

/-- Lines 293-336 for a single block: the updated `current_speaker` and
the optionally appended entry.  An exception (caught at line 338) leaves
both the state and the transcript untouched. -/
def processBlock (fallback : List String) (cur : Option String) (b : TBlock) :
    Option String × Option Entry :=
  if b.exn then (cur, none)
  else
    let text := pyStrip b.text
    let cur' := resolveSpeaker fallback cur b
    if !(text == "") && pyTruthy cur' then
      (cur', some ⟨cur'.getD "", text, b.startTime, b.stopTime⟩)
    else (cur', none)

/-- Lines 289-340: the block loop, producing the `transcript` list. -/
def runBlocks (fallback : List String) : List TBlock → Option String → List Entry
  | [], _ => []
  | b :: bs, cur =>
    match processBlock fallback cur b with
    | (cur', some e) => e :: runBlocks fallback bs cur'
    | (cur', none) => runBlocks fallback bs cur'

/-- The same loop instrumented for the proofs: each emitted entry is
recorded together with its source block and the value of
`current_speaker` just before that block was processed. -/
def runBlocksTr (fallback : List String) :
    List TBlock → Option String → List (TBlock × Option String × Entry)
  | [], _ => []
  | b :: bs, cur =>
    match processBlock fallback cur b with
    | (cur', some e) => (b, cur, e) :: runBlocksTr fallback bs cur'
    | (cur', none) => runBlocksTr fallback bs cur'

/-- The `current_speaker` state after one block. -/
def stateAfter (fallback : List String) (cur : Option String) (b : TBlock) :
    Option String :=
  if b.exn then cur else resolveSpeaker fallback cur b

/-- Each block paired with the `current_speaker` state just before it. -/
def annotateStates (fallback : List String) :
    List TBlock → Option String → List (TBlock × Option String)
  | [], _ => []
  | b :: bs, cur => (b, cur) :: annotateStates fallback bs (stateAfter fallback cur b)

/-- Spec-side qualification ("an entry is appended only if both text and
a resolved speaker exist"): the entry a block yields, given its incoming
state, or `none` for a failed / empty-text / unresolved-speaker block. -/
def entryOfQualifying (fallback : List String) (p : TBlock × Option String) :
    Option Entry :=
  let cur' := stateAfter fallback p.2 p.1
  if !p.1.exn && !(pyStrip p.1.text == "") && pyTruthy cur' then
    some ⟨cur'.getD "", pyStrip p.1.text, p.1.startTime, p.1.stopTime⟩
  else none

/-! ## The full run (lines 214-364) -/

/-- The JSON document of lines 343-349. -/
structure ScrapeResult where
  case_name : String
  argument_date : JVal
  metadata : Dict
  transcript : List Entry
  transcript_mode : String
deriving DecidableEq, Repr

/-- How one invocation of `get_transcript_with_selenium` ends. -/
inductive Outcome where
  /-- Line 240: `webdriver.Chrome` raised; the `try` was never entered,
  the exception propagates to the caller and `driver.quit()` never runs. -/
  | chromeRaise
  /-- Line 251: no oral-argument URL, early `return`; no file written. -/
  | earlyNoUrl
  /-- Line 361-362: an exception reached the run-level `except`; no file
  written. -/
  | fatal (msg : String)
  /-- Lines 352-357: the JSON file was written. -/
  | saved (filename : String) (result : ScrapeResult)
deriving DecidableEq, Repr

/-- Outcome of the run plus whether `driver.quit()` (line 364) ran. -/
structure RunResult where
  outcome : Outcome
  quit : Bool
deriving DecidableEq, Repr

/-- Oracles for everything `get_transcript_with_selenium` does beyond
`get_case_metadata`. -/
structure TransEnv where
  /-- Line 240: `webdriver.Chrome(options=...)` succeeding. -/
  driverOk : Bool
  menv : MetaEnv
  /-- Line 254: `driver.get(oral_argument_url)` succeeding. -/
  transNavOk : Bool
  /-- Lines 259-275: the blocks found once the wait / retry loop is
  over; `[]` means no block ever rendered, triggering line 278. -/
  blocks : List TBlock
  /-- Line 323: the page's `h4.ng-binding` texts, for the fallback. -/
  fallbackSpeakers : List String
  /-- The `full_transcript` argument. -/
  fullTranscript : Bool
  /-- Lines 356-357: opening and writing the output file succeeding. -/
  writeOk : Bool
deriving Repr

/-- Line 352: `title.replace(' ', '_').replace(',', '').replace('.', '')`
followed by the no-op `.replace('v', 'v')`. -/
def safeName (t : String) : String :=
  pyReplace (pyReplace (pyReplace (pyReplace t " " "_") "," "") "." "") "v" "v"

/-- Lines 244-359: the body of the run-level `try`.  `.error` models an
exception reaching the `except` of line 361; `.ok` carries the normal
outcome (early return, or the saved file). -/
def transcriptBody (env : TransEnv) : Except String Outcome :=
  match get_case_metadata env.menv with
  | .error msg => .error msg
  | .ok md =>
    if !jvalTruthyOpt (dictGet md "oral_argument_url") then .ok .earlyNoUrl
    else if !env.transNavOk then .error "navigation to oral argument page raised"
    else if env.blocks.isEmpty then
      .error "Could not load transcript blocks after multiple attempts"
    else
      let blocks := if env.fullTranscript then env.blocks else env.blocks.take 3
      let transcript := runBlocks env.fallbackSpeakers blocks none
      match dictGet md "title" with
      | some (.s t) =>
        let result : ScrapeResult :=
          ⟨t, (dictGet md "argued").getD .null, md, transcript,
            if env.fullTranscript then "FULL" else "TEST (first 3 blocks)"⟩
        if env.writeOk then
          .ok (.saved (safeName t ++ "_transcript" ++
            (if env.fullTranscript then "_full" else "_test") ++ ".json") result)
        else .error "writing the output file raised"
      | _ => .error "KeyError: title"

/-- Lines 214-364: session creation, the guarded body, the blanket
`except` and the `finally: driver.quit()`. -/
def get_transcript_with_selenium (env : TransEnv) : RunResult :=
  if env.driverOk then
    match transcriptBody env with
    | .error msg => ⟨.fatal msg, true⟩
    | .ok o => ⟨o, true⟩
  else ⟨.chromeRaise, false⟩

/-! ## Guarded field groups of `get_case_metadata`

The independently guarded `try/except` groups among the field
extractions (the case-details group of lines 91-97 is omitted: it
always fails, see `detailsStep`).  `failGroup` injects a selector miss
into one group; `groupKeys` lists the dict keys that group can touch. -/

inductive FGroup where
  | parties | advocates | facts | question | conclusion | oral | citation | timeline
deriving DecidableEq, Repr

def failGroup : FGroup → MetaEnv → MetaEnv
  | .parties, e => { e with partiesRowOk := false }
  | .advocates, e => { e with advocatesRes := none }
  | .facts, e => { e with factsRes := none }
  | .question, e => { e with questionRes := none }
  | .conclusion, e => { e with conclusionRes := none }
  | .oral, e => { e with oralPrimaryRes := none, oralAltRes := none }
  | .citation, e => { e with citationRes := none }
  | .timeline, e => { e with timelineSectionOk := false }

def groupKeys : FGroup → MetaEnv → List String
  | .parties, _ => ["petitioner", "respondent"]
  | .advocates, _ => ["advocates"]
  | .facts, _ => ["facts"]
  | .question, _ => ["question"]
  | .conclusion, _ => ["conclusion"]
  | .oral, _ => ["oral_argument_url"]
  | .citation, _ => ["citation"]
  | .timeline, e =>
    "citation" :: (e.timelineItems.filterMap (fun p => p.1)).map (fun h => pyLower (pyStrip h))

/-! ## Concrete instances used to instantiate the theorems -/

/-- A detail page on which every extraction oracle succeeds. -/
def envA : MetaEnv where
  listing := [some "zz v qq", some "acheson hotels v laufer"]
  caseName := "ach"
  titleRes := some " T "
  urlRes := some "u"
  descriptionRes := some "D"
  detailNavOk := true
  partiesRowOk := true
  petitionerRes := some "Petitioner P"
  respondentRes := some "Respondent R"
  advocatesRes := some [("a", "r")]
  factsRes := some ["f1", "f2"]
  questionRes := some ["q"]
  conclusionRes := some ["c"]
  oralPrimaryRes := some "OU"
  oralAltRes := none
  timelineSectionOk := true
  citationRes := some "cit"
  timelineItems := [(some "Argued ", some "d1"), (some "Decided", some "d2")]

/-- `envA` with a selector miss injected on the petitioner lookup only;
its respondent lookup would still succeed. -/
def envPetFail : MetaEnv := { envA with petitionerRes := none }

/-- `envA` with both oral-argument selectors missing. -/
def envNoOral : MetaEnv := { envA with oralPrimaryRes := none, oralAltRes := none }

/-- `envA` with a listing in which no title matches any token of the
case-name fragment. -/
def envNoMatch : MetaEnv := { envA with caseName := "zzz" }

/-- Blocks refuting the claim that a label-less entry inherits the
*previous emitted entry's* speaker: the middle block carries a label but
its text is empty, so it establishes a speaker without being emitted. -/
def cexBlocks : List TBlock :=
  [⟨false, "hello", none, none, some "W"⟩,
   ⟨false, "", none, none, some "X"⟩,
   ⟨false, "more", none, none, none⟩]

/-- Six blocks of which only every third one declares a turn label. -/
def blocksThirds : List TBlock :=
  [⟨false, "a1", some "0.1", some "0.2", some "S"⟩,
   ⟨false, "a2", none, none, none⟩,
   ⟨false, "a3", none, none, none⟩,
   ⟨false, "b1", none, none, some "U"⟩,
   ⟨false, "b2", none, none, none⟩,
   ⟨false, "b3", none, none, none⟩]

/-- A fully successful run environment (sample mode). -/
def tenvA : TransEnv where
  driverOk := true
  menv := envA
  transNavOk := true
  blocks := blocksThirds
  fallbackSpeakers := ["F"]
  fullTranscript := false
  writeOk := true

/-- A run whose case metadata has no oral-argument URL. -/
def tenvNoOral : TransEnv := { tenvA with menv := envNoOral }

/-- A run whose case is not found in the listing. -/
def tenvNoMatch : TransEnv := { tenvA with menv := envNoMatch }

/-- A run on which the transcript page never renders any block. -/
def tenvNoBlocks : TransEnv := { tenvA with blocks := [] }

/-- A run on which the automation session cannot be created. -/
def tenvNoDriver : TransEnv := { tenvA with driverOk := false }

/-! ## Helper lemmas -/

theorem dictGet_dictSet (d : Dict) (a : String) (v : JVal) (k : String) :
    dictGet (dictSet d a v) k = if a = k then some v else dictGet d k := by
  induction d with
  | nil => simp [dictSet, dictGet]
  | cons p rest ih =>
    obtain ⟨k', v'⟩ := p
    simp only [dictSet]
    by_cases h1 : k' = a
    · subst h1
      by_cases h2 : k' = k <;> simp [dictGet, h2]
    · simp only [if_neg h1, dictGet]
      by_cases h2 : k' = k
      · subst h2
        have : ¬ a = k' := fun h => h1 h.symm
        simp [this]
      · simp [h2, ih]

theorem findTargetIdx_some (cn : String) :
    ∀ (l : List (Option String)) (n i : Nat), findTargetIdx cn l n = some i →
      n ≤ i ∧ matchesEntry cn (l.getD (i - n) none) = true ∧
        ∀ j, j < i - n → matchesEntry cn (l.getD j none) = false := by
  intro l
  induction l with
  | nil => intro n i h; simp [findTargetIdx] at h
  | cons e rest ih =>
    intro n i h
    simp only [findTargetIdx] at h
    by_cases he : matchesEntry cn e = true
    · rw [if_pos he] at h
      obtain rfl : n = i := by simpa using h
      refine ⟨le_refl n, ?_, ?_⟩
      · simpa using he
      · intro j hj; omega
    · rw [if_neg he] at h
      obtain ⟨h1, h2, h3⟩ := ih (n + 1) i h
      refine ⟨by omega, ?_, ?_⟩
      · have : i - n = (i - (n + 1)) + 1 := by omega
        rw [this]
        simpa using h2
      · intro j hj
        match j with
        | 0 => simpa using he
        | j' + 1 =>
          have : j' < i - (n + 1) := by omega
          simpa using h3 j' this

theorem findTargetIdx_none (cn : String) :
    ∀ (l : List (Option String)) (n : Nat), findTargetIdx cn l n = none →
      ∀ e ∈ l, matchesEntry cn e = false := by
  intro l
  induction l with
  | nil => intro n _ e he; simp at he
  | cons a rest ih =>
    intro n h e he
    simp only [findTargetIdx] at h
    by_cases ha : matchesEntry cn a = true
    · rw [if_pos ha] at h; exact absurd h (by simp)
    · rw [if_neg ha] at h
      rcases List.mem_cons.mp he with rfl | hmem
      · simpa using ha
      · exact ih (n + 1) h e hmem

/-- C3: the metadata extractor selects the first listing entry (in
listing order) whose title contains, case-insensitively, some
whitespace-delimited token of the case-name fragment; when no entry
matches, `get_case_metadata` fails with the not-found error. -/
theorem C3_first_token_match (env : MetaEnv) :
    (∀ i, findTargetCase env.caseName env.listing = some i →
      matchesEntry env.caseName (env.listing.getD i none) = true ∧
        ∀ j, j < i → matchesEntry env.caseName (env.listing.getD j none) = false) ∧
    (findTargetCase env.caseName env.listing = none →
      (∀ e ∈ env.listing, matchesEntry env.caseName e = false) ∧
        get_case_metadata env = .error (notFoundMsg env.caseName)) := by
  constructor
  · intro i h
    obtain ⟨_, h2, h3⟩ := findTargetIdx_some env.caseName env.listing 0 i h
    rw [Nat.sub_zero] at h2 h3
    exact ⟨h2, h3⟩
  · intro h
    refine ⟨findTargetIdx_none env.caseName env.listing 0 h, ?_⟩
    unfold get_case_metadata
    rw [h]

theorem C3_first_token_match_witness :
    matchesEntry "ach"
        (([some "zz v qq", some "acheson hotels v laufer"] : List (Option String)).getD 1 none)
        = true ∧
      matchesEntry "ach"
        (([some "zz v qq", some "acheson hotels v laufer"] : List (Option String)).getD 0 none)
        = false := by
  have h := (C3_first_token_match envA).1 1 (by decide)
  exact ⟨h.1, h.2 0 (by omega)⟩

theorem processBlock_fst (fb : List String) (cur : Option String) (b : TBlock) :
    (processBlock fb cur b).1 = stateAfter fb cur b := by
  simp only [processBlock, stateAfter]
  cases hb : b.exn
  · simp only [Bool.false_eq_true, if_false]
    split <;> rfl
  · rfl

theorem processBlock_snd (fb : List String) (cur : Option String) (b : TBlock) :
    (processBlock fb cur b).2 = entryOfQualifying fb (b, cur) := by
  simp only [processBlock, entryOfQualifying, stateAfter]
  cases hb : b.exn
  · simp [hb]
    split <;> rfl
  · simp [hb]

theorem pyTruthy_some_getD (x : Option String) (h : pyTruthy x = true) :
    some (x.getD "") = x := by
  cases x with
  | none => simp [pyTruthy] at h
  | some s => rfl

theorem runBlocks_eq_trace (fb : List String) :
    ∀ (bs : List TBlock) (cur : Option String),
      runBlocks fb bs cur = (runBlocksTr fb bs cur).map (fun t => t.2.2) := by
  intro bs
  induction bs with
  | nil => intro cur; rfl
  | cons b rest ih =>
    intro cur
    simp only [runBlocks, runBlocksTr]
    rcases hp : processBlock fb cur b with ⟨cur', e?⟩
    cases e? <;> simp [ih]

theorem runBlocksTr_sublist (fb : List String) :
    ∀ (bs : List TBlock) (cur : Option String),
      ((runBlocksTr fb bs cur).map (fun t => t.1)).Sublist bs := by
  intro bs
  induction bs with
  | nil => intro cur; simp [runBlocksTr]
  | cons b rest ih =>
    intro cur
    simp only [runBlocksTr]
    rcases hp : processBlock fb cur b with ⟨cur', e?⟩
    cases e? with
    | none => exact (ih cur').cons b
    | some e => exact (ih cur').cons₂ b

/-- C9: transcript entries are emitted in document order — the emitted
entries are exactly the per-block results of a single in-order pass, and
the blocks they come from form an order-preserving subsequence of the
block sequence. -/
theorem C9_document_order (fb : List String) (blocks : List TBlock) (cur : Option String) :
    ((runBlocksTr fb blocks cur).map (fun t => t.1)).Sublist blocks ∧
      runBlocks fb blocks cur = (runBlocksTr fb blocks cur).map (fun t => t.2.2) :=
  ⟨runBlocksTr_sublist fb blocks cur, runBlocks_eq_trace fb blocks cur⟩

theorem runBlocks_length_le (fb : List String) :
    ∀ (bs : List TBlock) (cur : Option String),
      (runBlocks fb bs cur).length ≤ bs.length := by
  intro bs
  induction bs with
  | nil => intro cur; simp [runBlocks]
  | cons b rest ih =>
    intro cur
    simp only [runBlocks]
    rcases hp : processBlock fb cur b with ⟨cur', e?⟩
    cases e? with
    | none => exact le_trans (ih cur') (Nat.le_succ _)
    | some e => simpa using ih cur'

/-- C5: sample mode takes only the first 3 blocks, hence yields at most
3 entries; and (either mode) the loop emits exactly one entry per
processed block that did not fail, has non-empty stripped text, and has
a truthy resolved speaker — and no entry for any other block. -/
theorem C5_mode_limits (fb : List String) (blocks : List TBlock) (cur : Option String) :
    (runBlocks fb (blocks.take 3) cur).length ≤ 3 ∧
      runBlocks fb blocks cur =
        (annotateStates fb blocks cur).filterMap (entryOfQualifying fb) := by
  constructor
  · refine le_trans (runBlocks_length_le fb (blocks.take 3) cur) ?_
    simp [List.length_take]
  · induction blocks generalizing cur with
    | nil => rfl
    | cons b rest ih =>
      simp only [runBlocks, annotateStates, List.filterMap_cons]
      have h1 := processBlock_fst fb cur b
      have h2 := processBlock_snd fb cur b
      rcases hp : processBlock fb cur b with ⟨cur', e?⟩
      rw [hp] at h1 h2
      rw [← h2, ← h1]
      cases e? <;> simp [ih]

/-- C2 (amended): an emitted entry's speaker equals its own block's
(stripped) turn label when that label is truthy; otherwise it equals the
resolved carried speaker — the `current_speaker` state established by
*all* earlier blocks (labelled blocks update it whether or not they are
emitted, and the page-level fallback seeds it), not necessarily the
speaker of the previous emitted entry. -/
theorem C2_label_or_carry (fb : List String) (blocks : List TBlock) (cur : Option String) :
    runBlocks fb blocks cur = (runBlocksTr fb blocks cur).map (fun t => t.2.2) ∧
    ∀ t ∈ runBlocksTr fb blocks cur,
      t.1.exn = false ∧
      (pyTruthy t.1.label = true → t.2.2.speaker = pyStrip (t.1.label.getD "")) ∧
      (pyTruthy t.1.label = false → some t.2.2.speaker = resolveSpeaker fb t.2.1 t.1) := by
  refine ⟨runBlocks_eq_trace fb blocks cur, ?_⟩
  induction blocks generalizing cur with
  | nil => intro t ht; simp [runBlocksTr] at ht
  | cons b rest ih =>
    intro t ht
    simp only [runBlocksTr] at ht
    rcases hp : processBlock fb cur b with ⟨cur', e?⟩
    rw [hp] at ht
    cases e? with
    | none => exact ih cur' t ht
    | some e =>
      rcases List.mem_cons.mp ht with rfl | hmem
      · cases hb : b.exn
        · rw [processBlock, if_neg (by simp [hb])] at hp
          by_cases hcond : (!(pyStrip b.text == "") && pyTruthy (resolveSpeaker fb cur b)) = true
          · rw [if_pos hcond] at hp
            obtain ⟨hcur, he⟩ := Prod.mk.injEq .. ▸ hp
            obtain rfl : e = ⟨(resolveSpeaker fb cur b).getD "", pyStrip b.text,
                b.startTime, b.stopTime⟩ := by
              simpa using he.symm
            refine ⟨rfl, ?_, ?_⟩
            · intro hlab
              simp [resolveSpeaker, hlab]
            · intro hlab
              have htr : pyTruthy (resolveSpeaker fb cur b) = true := by
                exact (Bool.and_eq_true .. ▸ hcond).2
              exact pyTruthy_some_getD _ htr
          · rw [if_neg hcond] at hp
            exact absurd (congrArg Prod.snd hp) (by simp)
        · rw [processBlock, if_pos (by simp [hb])] at hp
          exact absurd (congrArg Prod.snd hp) (by simp)
      · exact ih cur' t hmem

theorem C2_label_or_carry_witness :
    ((⟨false, "a2", none, none, none⟩ : TBlock).exn = false) ∧
      some "S" = resolveSpeaker ["F"] (some "S") ⟨false, "a2", none, none, none⟩ := by
  have h := (C2_label_or_carry ["F"] blocksThirds none).2
    (⟨false, "a2", none, none, none⟩, some "S", ⟨"S", "a2", none, none⟩) (by decide)
  exact ⟨h.1, h.2.2 (by decide)⟩

/-- C2 counterexample: in `cexBlocks` the second block carries label "X"
but empty text (so it is skipped yet still establishes the speaker), and
the third block carries no label; the third block's emitted entry then
has speaker "X", different from the immediately preceding emitted
entry's speaker "W" — refuting the claim that a label-less entry's
speaker equals the previous *emitted* entry's speaker. -/
theorem C2_counterexample :
    runBlocks [] cexBlocks none =
        [⟨"W", "hello", none, none⟩, ⟨"X", "more", none, none⟩] ∧
      runBlocksTr [] cexBlocks none =
        [(⟨false, "hello", none, none, some "W"⟩, none, ⟨"W", "hello", none, none⟩),
         (⟨false, "more", none, none, none⟩, some "X", ⟨"X", "more", none, none⟩)] ∧
      pyTruthy (⟨false, "more", none, none, none⟩ : TBlock).label = false ∧
      ¬ ("X" = "W") := by decide

/-- C6: an exception while processing a block is caught and only skips
that block — the loop's result over any surrounding blocks is as if the
failing block were absent, and the failing block itself appends nothing
and leaves the carried speaker unchanged. -/
theorem C6_block_isolation (fb : List String) (cur : Option String)
    (pre post : List TBlock) (b : TBlock) (hexn : b.exn = true) :
    runBlocks fb (pre ++ b :: post) cur = runBlocks fb (pre ++ post) cur ∧
      processBlock fb cur b = (cur, none) := by
  have hstep : ∀ c, processBlock fb c b = (c, none) := by
    intro c; simp [processBlock, hexn]
  refine ⟨?_, hstep cur⟩
  induction pre generalizing cur with
  | nil => simp only [List.nil_append, runBlocks, hstep]
  | cons p rest ih =>
    simp only [List.cons_append, runBlocks]
    rcases hp : processBlock fb cur p with ⟨cur', e?⟩
    cases e? <;> simp [ih]

theorem C6_block_isolation_witness :
    runBlocks [] (cexBlocks ++ (⟨true, "boom", none, none, none⟩ : TBlock) :: cexBlocks) none =
        runBlocks [] (cexBlocks ++ cexBlocks) none ∧
      processBlock [] none ⟨true, "boom", none, none, none⟩ = (none, none) :=
  C6_block_isolation [] none cexBlocks cexBlocks ⟨true, "boom", none, none, none⟩ (by decide)

/-- C10: in the timeline loop, when an item's `h3` header lookup fails
after an earlier item succeeded, the handler's `metadata[header] = None`
uses the *stale* `header` binding and overwrites the earlier item's
already-stored date with `None`; and when the very first item's header
lookup fails while `header` is still unbound, the handler itself raises
`NameError`, so all remaining timeline items are skipped and the dict is
left as it stands. -/
theorem C10_timeline_header_aliasing (h1 d1 : String) (x : Option String)
    (rest : List (Option String × Option String)) (hv : Option String) (d : Dict) :
    timelineLoop ((some h1, some d1) :: (none, x) :: rest) hv d =
        timelineLoop rest (some (pyLower (pyStrip h1)))
          (dictSet (dictSet d (pyLower (pyStrip h1)) (.s (pyStrip d1)))
            (pyLower (pyStrip h1)) .null) ∧
      dictGet (dictSet (dictSet d (pyLower (pyStrip h1)) (.s (pyStrip d1)))
          (pyLower (pyStrip h1)) .null) (pyLower (pyStrip h1)) = some .null ∧
      timelineLoop ((none, x) :: rest) none d = d := by
  refine ⟨rfl, ?_, rfl⟩
  rw [dictGet_dictSet]
  simp

/-- C8: whenever the automation session is created (`webdriver.Chrome`
succeeds), `driver.quit()` runs before `get_transcript_with_selenium`
returns, on success and failure paths alike (the `finally` block). -/
theorem C8_driver_released (env : TransEnv) (h : env.driverOk = true) :
    (get_transcript_with_selenium env).quit = true := by
  simp only [get_transcript_with_selenium, h, if_true]
  cases transcriptBody env <;> rfl

theorem C8_driver_released_witness :
    (get_transcript_with_selenium tenvA).quit = true :=
  C8_driver_released tenvA rfl

/-- C7: run-level failures are fatal: a case missing from the listing
and a transcript page that never renders any block both end the run with
the exception swallowed at the run level, after `driver.quit()`, and
produce no output file; a failed session creation aborts the run before
any session exists (so nothing is released and no file is produced); and
a fatal outcome is never a saved-file outcome. -/
theorem C7_fatal_failures (env : TransEnv) (md : Dict) :
    (env.driverOk = true →
      findTargetCase env.menv.caseName env.menv.listing = none →
      get_transcript_with_selenium env = ⟨.fatal (notFoundMsg env.menv.caseName), true⟩) ∧
    (env.driverOk = true →
      get_case_metadata env.menv = .ok md →
      jvalTruthyOpt (dictGet md "oral_argument_url") = true →
      env.transNavOk = true →
      env.blocks = [] →
      get_transcript_with_selenium env =
        ⟨.fatal "Could not load transcript blocks after multiple attempts", true⟩) ∧
    (env.driverOk = false → get_transcript_with_selenium env = ⟨.chromeRaise, false⟩) ∧
    (∀ msg fn r, (get_transcript_with_selenium env).outcome = .fatal msg →
      ¬ ((get_transcript_with_selenium env).outcome = .saved fn r)) := by
  refine ⟨?_, ?_, ?_, ?_⟩
  · intro hd hnf
    simp only [get_transcript_with_selenium, hd, if_true]
    have hbody : transcriptBody env = .error (notFoundMsg env.menv.caseName) := by
      simp only [transcriptBody, get_case_metadata, hnf]
    rw [hbody]
  · intro hd hok htr hnav hblocks
    simp only [get_transcript_with_selenium, hd, if_true]
    have hbody : transcriptBody env =
        .error "Could not load transcript blocks after multiple attempts" := by
      simp [transcriptBody, hok, htr, hnav, hblocks]
    rw [hbody]
  · intro hd
    simp [get_transcript_with_selenium, hd]
  · intro msg fn r hfatal hsaved
    rw [hfatal] at hsaved
    exact Outcome.noConfusion hsaved

theorem C7_fatal_failures_witness :
    get_transcript_with_selenium tenvNoMatch = ⟨.fatal (notFoundMsg "zzz"), true⟩ ∧
      get_transcript_with_selenium tenvNoBlocks =
        ⟨.fatal "Could not load transcript blocks after multiple attempts", true⟩ ∧
      get_transcript_with_selenium tenvNoDriver = ⟨.chromeRaise, false⟩ ∧
      ¬ ((get_transcript_with_selenium tenvNoMatch).outcome =
          .saved "f" ⟨"", .null, [], [], ""⟩) := by
  have ha := (C7_fatal_failures tenvNoMatch []).1 rfl (by decide)
  have hb := (C7_fatal_failures tenvNoBlocks (metadataFields envA)).2.1 rfl rfl
    (by decide) rfl rfl
  have hc := (C7_fatal_failures tenvNoDriver []).2.2.1 rfl
  refine ⟨ha, hb, hc, ?_⟩
  exact (C7_fatal_failures tenvNoMatch []).2.2.2 (notFoundMsg "zzz") "f"
    ⟨"", .null, [], [], ""⟩ (by rw [ha]; rfl)

/-- C4: the oral-argument-URL lookup consults the looser selector only
when the primary one fails; when both fail the field is explicitly set
to null; and a run whose metadata has a falsy `oral_argument_url`
returns early — no exception, no transcript, no output file (and the
session is still released). -/
theorem C4_oral_fallback_skip (env : MetaEnv) (tenv : TransEnv) (d : Dict)
    (md : Dict) (u v : String) :
    (env.oralPrimaryRes = some u →
      dictGet (oralStep env d) "oral_argument_url" = some (.s u)) ∧
    (env.oralPrimaryRes = none → env.oralAltRes = some v →
      dictGet (oralStep env d) "oral_argument_url" = some (.s v)) ∧
    (env.oralPrimaryRes = none → env.oralAltRes = none →
      dictGet (oralStep env d) "oral_argument_url" = some .null) ∧
    (tenv.driverOk = true →
      get_case_metadata tenv.menv = .ok md →
      jvalTruthyOpt (dictGet md "oral_argument_url") = false →
      get_transcript_with_selenium tenv = ⟨.earlyNoUrl, true⟩) := by
  refine ⟨?_, ?_, ?_, ?_⟩
  · intro hp; simp [oralStep, hp, dictGet_dictSet]
  · intro hp ha; simp [oralStep, hp, ha, dictGet_dictSet]
  · intro hp ha; simp [oralStep, hp, ha, dictGet_dictSet]
  · intro hd hok hfal
    simp only [get_transcript_with_selenium, hd, if_true]
    have hbody : transcriptBody tenv = .ok .earlyNoUrl := by
      simp [transcriptBody, hok, hfal]
    rw [hbody]

theorem C4_oral_fallback_skip_witness :
    dictGet (oralStep envA []) "oral_argument_url" = some (.s "OU") ∧
      dictGet (oralStep { envA with oralPrimaryRes := none, oralAltRes := some "AU" } [])
          "oral_argument_url" = some (.s "AU") ∧
      dictGet (oralStep envNoOral []) "oral_argument_url" = some .null ∧
      get_transcript_with_selenium tenvNoOral = ⟨.earlyNoUrl, true⟩ := by
  refine ⟨?_, ?_, ?_, ?_⟩
  · exact (C4_oral_fallback_skip envA tenvA [] [] "OU" "AU").1 rfl
  · exact (C4_oral_fallback_skip
      { envA with oralPrimaryRes := none, oralAltRes := some "AU" }
      tenvA [] [] "OU" "AU").2.1 rfl rfl
  · exact (C4_oral_fallback_skip envNoOral tenvA [] [] "OU" "AU").2.2.1 rfl rfl
  · exact (C4_oral_fallback_skip envA tenvNoOral [] (metadataFields envNoOral)
      "OU" "AU").2.2.2 rfl rfl (by decide)

/-! ### Locality and congruence of the field-extraction steps

For every guarded group's step: the step never changes the dict at keys
outside its own key set (`_ne`), and the step's effect at any single key
depends only on the step's own oracles and on the incoming dict's value
at that key (`_congr`). -/

theorem dictGet_partiesStep_ne (env : MetaEnv) (d : Dict) (k : String)
    (h1 : ¬("petitioner" = k)) (h2 : ¬("respondent" = k)) :
    dictGet (partiesStep env d) k = dictGet d k := by
  unfold partiesStep
  split
  · cases env.petitionerRes with
    | none => rfl
    | some p =>
      cases env.respondentRes with
      | none => simp [dictGet_dictSet, h1]
      | some r => simp [dictGet_dictSet, h1, h2]
  · rfl

theorem dictGet_partiesStep_congr (e1 e2 : MetaEnv) (d1 d2 : Dict) (k : String)
    (ha : e1.partiesRowOk = e2.partiesRowOk) (hb : e1.petitionerRes = e2.petitionerRes)
    (hc : e1.respondentRes = e2.respondentRes) (hd : dictGet d1 k = dictGet d2 k) :
    dictGet (partiesStep e1 d1) k = dictGet (partiesStep e2 d2) k := by
  unfold partiesStep
  rw [ha, hb, hc]
  split
  · cases e2.petitionerRes with
    | none => exact hd
    | some p =>
      cases e2.respondentRes with
      | none => simp [dictGet_dictSet, hd]
      | some r => simp [dictGet_dictSet, hd]
  · exact hd

theorem dictGet_advocatesStep_ne (env : MetaEnv) (d : Dict) (k : String)
    (h : ¬("advocates" = k)) : dictGet (advocatesStep env d) k = dictGet d k := by
  unfold advocatesStep
  cases env.advocatesRes with
  | none => rfl
  | some l => simp [dictGet_dictSet, h]

theorem dictGet_advocatesStep_congr (e1 e2 : MetaEnv) (d1 d2 : Dict) (k : String)
    (hb : e1.advocatesRes = e2.advocatesRes) (hd : dictGet d1 k = dictGet d2 k) :
    dictGet (advocatesStep e1 d1) k = dictGet (advocatesStep e2 d2) k := by
  unfold advocatesStep
  rw [hb]
  cases e2.advocatesRes with
  | none => exact hd
  | some l => simp [dictGet_dictSet, hd]

theorem dictGet_factsStep_ne (env : MetaEnv) (d : Dict) (k : String)
    (h : ¬("facts" = k)) : dictGet (factsStep env d) k = dictGet d k := by
  unfold factsStep
  cases env.factsRes with
  | none => rfl
  | some ps => simp [dictGet_dictSet, h]

theorem dictGet_factsStep_congr (e1 e2 : MetaEnv) (d1 d2 : Dict) (k : String)
    (hb : e1.factsRes = e2.factsRes) (hd : dictGet d1 k = dictGet d2 k) :
    dictGet (factsStep e1 d1) k = dictGet (factsStep e2 d2) k := by
  unfold factsStep
  rw [hb]
  cases e2.factsRes with
  | none => exact hd
  | some ps => simp [dictGet_dictSet, hd]

theorem dictGet_questionStep_ne (env : MetaEnv) (d : Dict) (k : String)
    (h : ¬("question" = k)) : dictGet (questionStep env d) k = dictGet d k := by
  unfold questionStep
  cases env.questionRes with
  | none => rfl
  | some ps => simp [dictGet_dictSet, h]

theorem dictGet_questionStep_congr (e1 e2 : MetaEnv) (d1 d2 : Dict) (k : String)
    (hb : e1.questionRes = e2.questionRes) (hd : dictGet d1 k = dictGet d2 k) :
    dictGet (questionStep e1 d1) k = dictGet (questionStep e2 d2) k := by
  unfold questionStep
  rw [hb]
  cases e2.questionRes with
  | none => exact hd
  | some ps => simp [dictGet_dictSet, hd]

theorem dictGet_conclusionStep_ne (env : MetaEnv) (d : Dict) (k : String)
    (h : ¬("conclusion" = k)) : dictGet (conclusionStep env d) k = dictGet d k := by
  unfold conclusionStep
  cases env.conclusionRes with
  | none => rfl
  | some ps => simp [dictGet_dictSet, h]

theorem dictGet_conclusionStep_congr (e1 e2 : MetaEnv) (d1 d2 : Dict) (k : String)
    (hb : e1.conclusionRes = e2.conclusionRes) (hd : dictGet d1 k = dictGet d2 k) :
    dictGet (conclusionStep e1 d1) k = dictGet (conclusionStep e2 d2) k := by
  unfold conclusionStep
  rw [hb]
  cases e2.conclusionRes with
  | none => exact hd
  | some ps => simp [dictGet_dictSet, hd]

theorem dictGet_oralStep_ne (env : MetaEnv) (d : Dict) (k : String)
    (h : ¬("oral_argument_url" = k)) : dictGet (oralStep env d) k = dictGet d k := by
  unfold oralStep
  cases env.oralPrimaryRes with
  | some u => simp [dictGet_dictSet, h]
  | none =>
    cases env.oralAltRes with
    | some u => simp [dictGet_dictSet, h]
    | none => simp [dictGet_dictSet, h]

theorem dictGet_oralStep_congr (e1 e2 : MetaEnv) (d1 d2 : Dict) (k : String)
    (hb : e1.oralPrimaryRes = e2.oralPrimaryRes) (hc : e1.oralAltRes = e2.oralAltRes)
    (hd : dictGet d1 k = dictGet d2 k) :
    dictGet (oralStep e1 d1) k = dictGet (oralStep e2 d2) k := by
  unfold oralStep
  rw [hb, hc]
  cases e2.oralPrimaryRes with
  | some u => simp [dictGet_dictSet, hd]
  | none =>
    cases e2.oralAltRes with
    | some u => simp [dictGet_dictSet, hd]
    | none => simp [dictGet_dictSet, hd]

theorem dictGet_timelineLoop_congr :
    ∀ (items : List (Option String × Option String)) (hv : Option String)
      (d1 d2 : Dict) (k : String), dictGet d1 k = dictGet d2 k →
      dictGet (timelineLoop items hv d1) k = dictGet (timelineLoop items hv d2) k := by
  intro items
  induction items with
  | nil => intro hv d1 d2 k hd; exact hd
  | cons item rest ih =>
    intro hv d1 d2 k hd
    obtain ⟨hRes, dtRes⟩ := item
    simp only [timelineLoop]
    cases hRes with
    | some hRaw =>
      cases dtRes with
      | some dt => exact ih _ _ _ _ (by simp [dictGet_dictSet, hd])
      | none => exact ih _ _ _ _ (by simp [dictGet_dictSet, hd])
    | none =>
      cases hv with
      | some h => exact ih _ _ _ _ (by simp [dictGet_dictSet, hd])
      | none => exact hd

theorem dictGet_timelineLoop_ne :
    ∀ (items : List (Option String × Option String)) (hv : Option String)
      (d : Dict) (k : String),
      k ∉ (items.filterMap (fun p => p.1)).map (fun h => pyLower (pyStrip h)) →
      (∀ h, hv = some h → ¬(h = k)) →
      dictGet (timelineLoop items hv d) k = dictGet d k := by
  intro items
  induction items with
  | nil => intro hv d k _ _; rfl
  | cons item rest ih =>
    intro hv d k hmem hhv
    obtain ⟨hRes, dtRes⟩ := item
    simp only [timelineLoop]
    cases hRes with
    | some hRaw =>
      rw [show ((some hRaw, dtRes) :: rest).filterMap (fun p => p.1) =
          hRaw :: rest.filterMap (fun p => p.1) from rfl] at hmem
      simp only [List.map_cons, List.mem_cons, not_or] at hmem
      obtain ⟨hk1, hk2⟩ := hmem
      have hne : ¬(pyLower (pyStrip hRaw) = k) := fun h => hk1 h.symm
      cases dtRes with
      | some dt =>
        rw [ih (some (pyLower (pyStrip hRaw))) _ k hk2
          (fun h hh => by injection hh with hh; rw [← hh]; exact hne)]
        simp [dictGet_dictSet, hne]
      | none =>
        rw [ih (some (pyLower (pyStrip hRaw))) _ k hk2
          (fun h hh => by injection hh with hh; rw [← hh]; exact hne)]
        simp [dictGet_dictSet, hne]
    | none =>
      cases hv with
      | some h =>
        have hne : ¬(h = k) := hhv h rfl
        rw [ih (some h) _ k (by simpa using hmem) hhv]
        simp [dictGet_dictSet, hne]
      | none => rfl

theorem dictGet_timelineStep_ne (env : MetaEnv) (d : Dict) (k : String)
    (hc : ¬("citation" = k))
    (hi : k ∉ (env.timelineItems.filterMap (fun p => p.1)).map (fun h => pyLower (pyStrip h))) :
    dictGet (timelineStep env d) k = dictGet d k := by
  unfold timelineStep
  split
  · rw [dictGet_timelineLoop_ne env.timelineItems none _ k hi (by intro h hh; cases hh)]
    cases env.citationRes with
    | some c => simp [dictGet_dictSet, hc]
    | none => simp [dictGet_dictSet, hc]
  · rfl

theorem dictGet_timelineStep_congr (e1 e2 : MetaEnv) (d1 d2 : Dict) (k : String)
    (hs : e1.timelineSectionOk = e2.timelineSectionOk) (hcit : e1.citationRes = e2.citationRes)
    (hi : e1.timelineItems = e2.timelineItems) (hd : dictGet d1 k = dictGet d2 k) :
    dictGet (timelineStep e1 d1) k = dictGet (timelineStep e2 d2) k := by
  unfold timelineStep
  rw [hs, hcit, hi]
  split
  · apply dictGet_timelineLoop_congr
    cases e2.citationRes with
    | some c => simp [dictGet_dictSet, hd]
    | none => simp [dictGet_dictSet, hd]
  · exact hd

/-- Like `dictGet_timelineStep_congr`, but with a citation-lookup
failure injected on the left (the inner `except` then stores `None`
under `"citation"` instead of the citation text). -/
theorem dictGet_timelineStep_congr_citation (e1 e2 : MetaEnv) (d1 d2 : Dict) (k : String)
    (hs : e1.timelineSectionOk = e2.timelineSectionOk) (hc1 : e1.citationRes = none)
    (hi : e1.timelineItems = e2.timelineItems) (hkc : ¬("citation" = k))
    (hd : dictGet d1 k = dictGet d2 k) :
    dictGet (timelineStep e1 d1) k = dictGet (timelineStep e2 d2) k := by
  unfold timelineStep
  rw [hs, hc1, hi]
  split
  · apply dictGet_timelineLoop_congr
    cases e2.citationRes with
    | some c => simp [dictGet_dictSet, hkc, hd]
    | none => simp [dictGet_dictSet, hd]
  · exact hd

theorem dictGet_metadataFields_congr (e1 e2 : MetaEnv) (k : String)
    (ht : e1.titleRes = e2.titleRes) (hu : e1.urlRes = e2.urlRes)
    (hdsc : e1.descriptionRes = e2.descriptionRes) (hnav : e1.detailNavOk = e2.detailNavOk)
    (hchain : ∀ d1 d2, dictGet d1 k = dictGet d2 k →
      dictGet (fieldChain e1 d1) k = dictGet (fieldChain e2 d2) k) :
    dictGet (metadataFields e1) k = dictGet (metadataFields e2) k := by
  unfold metadataFields
  rw [ht, hu, hdsc, hnav]
  cases e2.titleRes with
  | none => rfl
  | some t =>
    cases e2.urlRes with
    | none => rfl
    | some u =>
      cases e2.descriptionRes with
      | none => rfl
      | some dsc =>
        cases e2.detailNavOk with
        | false => rfl
        | true => exact hchain _ _ rfl

/-- C1 (amended): field-extraction failures are isolated per guarded
`try/except` *group*, not per field — injecting a selector miss into one
group leaves the extracted value of every dict key outside that group's
key set unchanged, and the run still returns normally.  (Within a group,
an earlier field's failure does abort the group's later fields, and a
title / url / description failure aborts all later groups: see
`C1_counterexample`.) -/
theorem C1_group_isolation (env : MetaEnv) (g : FGroup) (k : String)
    (hk : k ∉ groupKeys g env) :
    dictGet (metadataFields (failGroup g env)) k = dictGet (metadataFields env) k := by
  cases g with
  | parties =>
    simp only [groupKeys, List.mem_cons, List.mem_singleton, not_or] at hk
    obtain ⟨hk1, hk2, -⟩ := hk
    refine dictGet_metadataFields_congr _ _ _ rfl rfl rfl rfl ?_
    intro d1 d2 hd
    unfold fieldChain
    refine dictGet_timelineStep_congr _ _ _ _ _ rfl rfl rfl ?_
    refine dictGet_oralStep_congr _ _ _ _ _ rfl rfl ?_
    refine dictGet_conclusionStep_congr _ _ _ _ _ rfl ?_
    refine dictGet_questionStep_congr _ _ _ _ _ rfl ?_
    refine dictGet_factsStep_congr _ _ _ _ _ rfl ?_
    refine dictGet_advocatesStep_congr _ _ _ _ _ rfl ?_
    simp only [detailsStep]
    refine ((dictGet_partiesStep_ne _ _ _ (fun h => hk1 h.symm)
      (fun h => hk2 h.symm)).trans ?_).trans
      (dictGet_partiesStep_ne _ _ _ (fun h => hk1 h.symm) (fun h => hk2 h.symm)).symm
    exact hd
  | advocates =>
    simp only [groupKeys, List.mem_singleton] at hk
    have hne : ¬("advocates" = k) := fun h => hk h.symm
    refine dictGet_metadataFields_congr _ _ _ rfl rfl rfl rfl ?_
    intro d1 d2 hd
    unfold fieldChain
    refine dictGet_timelineStep_congr _ _ _ _ _ rfl rfl rfl ?_
    refine dictGet_oralStep_congr _ _ _ _ _ rfl rfl ?_
    refine dictGet_conclusionStep_congr _ _ _ _ _ rfl ?_
    refine dictGet_questionStep_congr _ _ _ _ _ rfl ?_
    refine dictGet_factsStep_congr _ _ _ _ _ rfl ?_
    refine ((dictGet_advocatesStep_ne _ _ _ hne).trans ?_).trans
      (dictGet_advocatesStep_ne _ _ _ hne).symm
    simp only [detailsStep]
    refine dictGet_partiesStep_congr _ _ _ _ _ rfl rfl rfl ?_
    exact hd
  | facts =>
    simp only [groupKeys, List.mem_singleton] at hk
    have hne : ¬("facts" = k) := fun h => hk h.symm
    refine dictGet_metadataFields_congr _ _ _ rfl rfl rfl rfl ?_
    intro d1 d2 hd
    unfold fieldChain
    refine dictGet_timelineStep_congr _ _ _ _ _ rfl rfl rfl ?_
    refine dictGet_oralStep_congr _ _ _ _ _ rfl rfl ?_
    refine dictGet_conclusionStep_congr _ _ _ _ _ rfl ?_
    refine dictGet_questionStep_congr _ _ _ _ _ rfl ?_
    refine ((dictGet_factsStep_ne _ _ _ hne).trans ?_).trans
      (dictGet_factsStep_ne _ _ _ hne).symm
    refine dictGet_advocatesStep_congr _ _ _ _ _ rfl ?_
    simp only [detailsStep]
    refine dictGet_partiesStep_congr _ _ _ _ _ rfl rfl rfl ?_
    exact hd
  | question =>
    simp only [groupKeys, List.mem_singleton] at hk
    have hne : ¬("question" = k) := fun h => hk h.symm
    refine dictGet_metadataFields_congr _ _ _ rfl rfl rfl rfl ?_
    intro d1 d2 hd
    unfold fieldChain
    refine dictGet_timelineStep_congr _ _ _ _ _ rfl rfl rfl ?_
    refine dictGet_oralStep_congr _ _ _ _ _ rfl rfl ?_
    refine dictGet_conclusionStep_congr _ _ _ _ _ rfl ?_
    refine ((dictGet_questionStep_ne _ _ _ hne).trans ?_).trans
      (dictGet_questionStep_ne _ _ _ hne).symm
    refine dictGet_factsStep_congr _ _ _ _ _ rfl ?_
    refine dictGet_advocatesStep_congr _ _ _ _ _ rfl ?_
    simp only [detailsStep]
    refine dictGet_partiesStep_congr _ _ _ _ _ rfl rfl rfl ?_
    exact hd
  | conclusion =>
    simp only [groupKeys, List.mem_singleton] at hk
    have hne : ¬("conclusion" = k) := fun h => hk h.symm
    refine dictGet_metadataFields_congr _ _ _ rfl rfl rfl rfl ?_
    intro d1 d2 hd
    unfold fieldChain
    refine dictGet_timelineStep_congr _ _ _ _ _ rfl rfl rfl ?_
    refine dictGet_oralStep_congr _ _ _ _ _ rfl rfl ?_
    refine ((dictGet_conclusionStep_ne _ _ _ hne).trans ?_).trans
      (dictGet_conclusionStep_ne _ _ _ hne).symm
    refine dictGet_questionStep_congr _ _ _ _ _ rfl ?_
    refine dictGet_factsStep_congr _ _ _ _ _ rfl ?_
    refine dictGet_advocatesStep_congr _ _ _ _ _ rfl ?_
    simp only [detailsStep]
    refine dictGet_partiesStep_congr _ _ _ _ _ rfl rfl rfl ?_
    exact hd
  | oral =>
    simp only [groupKeys, List.mem_singleton] at hk
    have hne : ¬("oral_argument_url" = k) := fun h => hk h.symm
    refine dictGet_metadataFields_congr _ _ _ rfl rfl rfl rfl ?_
    intro d1 d2 hd
    unfold fieldChain
    refine dictGet_timelineStep_congr _ _ _ _ _ rfl rfl rfl ?_
    refine ((dictGet_oralStep_ne _ _ _ hne).trans ?_).trans
      (dictGet_oralStep_ne _ _ _ hne).symm
    refine dictGet_conclusionStep_congr _ _ _ _ _ rfl ?_
    refine dictGet_questionStep_congr _ _ _ _ _ rfl ?_
    refine dictGet_factsStep_congr _ _ _ _ _ rfl ?_
    refine dictGet_advocatesStep_congr _ _ _ _ _ rfl ?_
    simp only [detailsStep]
    refine dictGet_partiesStep_congr _ _ _ _ _ rfl rfl rfl ?_
    exact hd
  | citation =>
    simp only [groupKeys, List.mem_singleton] at hk
    have hne : ¬("citation" = k) := fun h => hk h.symm
    refine dictGet_metadataFields_congr _ _ _ rfl rfl rfl rfl ?_
    intro d1 d2 hd
    unfold fieldChain
    refine dictGet_timelineStep_congr_citation _ _ _ _ _ rfl rfl rfl hne ?_
    refine dictGet_oralStep_congr _ _ _ _ _ rfl rfl ?_
    refine dictGet_conclusionStep_congr _ _ _ _ _ rfl ?_
    refine dictGet_questionStep_congr _ _ _ _ _ rfl ?_
    refine dictGet_factsStep_congr _ _ _ _ _ rfl ?_
    refine dictGet_advocatesStep_congr _ _ _ _ _ rfl ?_
    simp only [detailsStep]
    refine dictGet_partiesStep_congr _ _ _ _ _ rfl rfl rfl ?_
    exact hd
  | timeline =>
    simp only [groupKeys, List.mem_cons, not_or] at hk
    obtain ⟨hk1, hk2⟩ := hk
    have hne : ¬("citation" = k) := fun h => hk1 h.symm
    refine dictGet_metadataFields_congr _ _ _ rfl rfl rfl rfl ?_
    intro d1 d2 hd
    unfold fieldChain
    have hki : k ∉ ((failGroup FGroup.timeline env).timelineItems.filterMap
        (fun p => p.1)).map (fun h => pyLower (pyStrip h)) := hk2
    refine ((dictGet_timelineStep_ne (failGroup FGroup.timeline env) _ _ hne hki).trans
      ?_).trans (dictGet_timelineStep_ne env _ _ hne hk2).symm
    refine dictGet_oralStep_congr _ _ _ _ _ rfl rfl ?_
    refine dictGet_conclusionStep_congr _ _ _ _ _ rfl ?_
    refine dictGet_questionStep_congr _ _ _ _ _ rfl ?_
    refine dictGet_factsStep_congr _ _ _ _ _ rfl ?_
    refine dictGet_advocatesStep_congr _ _ _ _ _ rfl ?_
    simp only [detailsStep]
    refine dictGet_partiesStep_congr _ _ _ _ _ rfl rfl rfl ?_
    exact hd

theorem C1_group_isolation_witness :
    ("question" ∉ groupKeys FGroup.facts envA) ∧
      dictGet (metadataFields (failGroup FGroup.facts envA)) "question" =
        dictGet (metadataFields envA) "question" :=
  ⟨by decide, C1_group_isolation envA FGroup.facts "question" (by decide)⟩

/-- C1 counterexample: on `envPetFail` only the petitioner lookup fails,
yet the respondent — whose own lookup would succeed (first conjunct) —
is absent from the result, because both parties share one `try/except`:
a failure extracting one field *does* abort extraction of another. -/
theorem C1_counterexample :
    envPetFail.respondentRes = some "Respondent R" ∧
      dictGet (metadataFields envPetFail) "respondent" = none ∧
      dictGet (metadataFields envA) "respondent" = some (.s "R") := by decide

end OyezScraper
